import Mathlib

/-!
Shallow embedding of `src/TabViewPagerPan.js` (react-native-tab-view pager pan
responder). The component's gesture handlers are pure functions of the props,
the incoming gesture sample and the component's mutable fields; we model the
mutable fields as an explicit `PagerState` record and each handler as a state
transformer. JavaScript numbers are modelled as rationals, with a small
`JSNum` type (finite / NaN / ±Infinity) where division can produce a
non-finite value (`dx / Math.abs(dx)` at `dx = 0`, `dx / width`).
-/

namespace TabViewPagerPan

/-- The value of `Platform.OS` as consulted by `_getNextIndex`. -/
inductive Platform where
  | android : Platform
  | ios : Platform
deriving DecidableEq

/-- A JavaScript number that may be non-finite: the result of a division.
Only the cases this component can produce are represented. -/
inductive JSNum where
  | nan : JSNum
  | posInf : JSNum
  | negInf : JSNum
  | fin : ℚ → JSNum
deriving DecidableEq

/-- JavaScript division `a / b` on finite operands: `0 / 0` is `NaN`,
`a / 0` for `a ≠ 0` is `±Infinity`, otherwise exact rational division
(the divisions in this file — `dx / |dx|`, `dx / width` — are exact). -/
def jdiv (a b : ℚ) : JSNum :=
  if b = 0 then
    if a = 0 then .nan
    else if 0 < a then .posInf
    else .negInf
  else .fin (a / b)

/-- JavaScript subtraction `x - y` with a finite left operand. -/
def jsub (x : ℚ) : JSNum → JSNum
  | .nan => .nan
  | .posInf => .negInf
  | .negInf => .posInf
  | .fin q => .fin (x - q)

/-- Extract the finite value of a `JSNum`, with a default for the
non-finite cases. -/
def JSNum.getFin : JSNum → ℚ → ℚ
  | .fin q, _ => q
  | _, d => d

/-- The dead-zone constant: `const DEAD_ZONE = 12`. -/
def DEAD_ZONE : ℚ := 12

/-- The props consulted by the gesture handlers: configuration thresholds,
`navigationState.index`, `navigationState.routes.length`, `layout.width`
and the platform. -/
structure Props where
  swipeEnabled : Option Bool
  swipeDistanceThreshold : ℚ
  swipeVelocityThreshold : ℚ
  index : ℤ
  routeCount : ℕ
  width : ℚ
  platform : Platform

/-- A decoded gesture sample: cumulative displacement and velocity
(`gestureState.dx/dy/vx/vy`). -/
structure Gesture where
  dx : ℚ
  dy : ℚ
  vx : ℚ
  vy : ℚ

/-- The component's mutable fields: `_lastOffset` (cached offset listener
value), `_lastValue` (baseline frozen at gesture grant), `_isMoving`
(horizontal classification, decided once per session), `_startDirection`
(the claiming sample's `dx`), and the shared `offset` observable's current
value. -/
structure PagerState where
  lastOffset : ℚ
  lastValue : Option ℚ
  isMoving : Option Bool
  startDirection : ℚ
  offset : ℚ
deriving DecidableEq

/-- Embeds `_isIndexInRange`: `index >= 0 && index <= routes.length - 1`. -/
def isIndexInRange (x : ℚ) (routeCount : ℕ) : Bool :=
  decide (x ≥ 0) && decide (x ≤ (routeCount : ℚ) - 1)

/-- The check `_isIndexInRange` applied to a possibly non-finite number: every
comparison with `NaN` is false, and `±Infinity` fails one of the two
bounds, so only a finite in-range value passes. -/
def isIndexInRangeN (x : JSNum) (routeCount : ℕ) : Bool :=
  match x with
  | .fin q => isIndexInRange q routeCount
  | .nan => false
  | .posInf => false
  | .negInf => false

/-- Embeds `_isMovingHorzontally`:
`|dx| > |dy * 3| && |vx| > |vy * 3|`. -/
def isMovingHorzontally (g : Gesture) : Bool :=
  decide (|g.dx| > |g.dy * 3|) && decide (|g.vx| > |g.vy * 3|)

/-- Embeds `_isReverseDirection`: if `_startDirection > 0` then `vx < 0`
else `vx > 0`. -/
def isReverseDirection (startDirection vx : ℚ) : Bool :=
  if 0 < startDirection then decide (vx < 0) else decide (0 < vx)

/-- The velocity threshold actually compared against `|vx|` in
`_getNextIndex`: on Android the configured threshold is divided by
1,000,000; on iOS it is used unchanged. -/
def normVelocityThreshold (plat : Platform) (t : ℚ) : ℚ :=
  match plat with
  | .android => t / 1000000
  | .ios => t

/-- Embeds `_getNextIndex`: if `|dx| > swipeDistanceThreshold || |vx| >
swipeVelocityThreshold` (the latter platform-adjusted), the candidate
`index - dx / |dx|` is returned when it passes `_isIndexInRange`,
otherwise the current index. -/
def getNextIndex (p : Props) (g : Gesture) : JSNum :=
  let swipeVelocityThreshold := normVelocityThreshold p.platform p.swipeVelocityThreshold
  if decide (|g.dx| > p.swipeDistanceThreshold) || decide (|g.vx| > swipeVelocityThreshold) then
    let nextIndex := jsub (p.index : ℚ) (jdiv g.dx |g.dx|)
    if isIndexInRangeN nextIndex p.routeCount then nextIndex
    else .fin (p.index : ℚ)
  else .fin (p.index : ℚ)

/-- Embeds `_canMoveScreen` (the claim decision): false when swiping is disabled,
otherwise horizontal dominance together with the dead-zone/edge guard. -/
def canMoveScreen (p : Props) (g : Gesture) : Bool :=
  if p.swipeEnabled == some false then false
  else
    isMovingHorzontally g &&
      ((decide (g.dx ≥ DEAD_ZONE) && decide ((p.index : ℚ) ≥ 0)) ||
       (decide (g.dx ≤ -DEAD_ZONE) && decide ((p.index : ℚ) ≤ (p.routeCount : ℚ) - 1)))

/-- Embeds `_canMoveScreen` including its side effect: when the gesture is
claimed, `_startDirection` is set to the sample's `dx`. -/
def canMoveScreenUpd (p : Props) (g : Gesture) (s : PagerState) : Bool × PagerState :=
  let canMove := canMoveScreen p g
  (canMove, if canMove then { s with startDirection := g.dx } else s)

/-- Embeds `_startGesture`: `offset.stopAnimation(value => this._lastValue = value)` —
the in-flight animation is halted and its current value becomes the
baseline. -/
def startGesture (s : PagerState) : PagerState :=
  { s with lastValue := some s.offset }

/-- Embeds `_respondToGesture`: compute `nextPosition = currentPosition - dx / width`
from the baseline (falling back to `navigationState.index` when no baseline
value is available), decide `_isMoving` once per session, and write the
shared offset only when moving horizontally and the candidate passes
`_isIndexInRange`. -/
def respondToGesture (p : Props) (g : Gesture) (s : PagerState) : PagerState :=
  let currentPosition := s.lastValue.getD (p.index : ℚ)
  let nextPosition := jsub currentPosition (jdiv g.dx p.width)
  let isMoving : Option Bool :=
    match s.isMoving with
    | none => some (isMovingHorzontally g)
    | some b => some b
  if isMoving.getD false && isIndexInRangeN nextPosition p.routeCount then
    { s with isMoving := isMoving, offset := nextPosition.getFin s.offset }
  else
    { s with isMoving := isMoving }

/-- Embeds `_finishGesture`: the commit resolver. Returns the `jumpToIndex`
request (if any) and the state after the handler: `_lastValue` and
`_isMoving` are reset to `null`. -/
def finishGesture (p : Props) (g : Gesture) (s : PagerState) : Option JSNum × PagerState :=
  let currentIndex := p.index
  let currentValue := s.lastOffset
  let req : Option JSNum :=
    if currentValue ≠ (currentIndex : ℚ) then
      if s.isMoving.getD false && !(isReverseDirection s.startDirection g.vx) then
        some (getNextIndex p g)
      else
        some (.fin (currentIndex : ℚ))
    else none
  (req, { s with lastValue := none, isMoving := none })

/-- The argument records built by `_transitionTo` and handed to
`configureTransition`. -/
structure TransitionProps where
  position : ℚ

/-- An animation parameter record; its contents are opaque to the core
(only presence/absence matters to `_transitionTo`). -/
structure TransitionSpec where
  tension : ℚ
  friction : ℚ

/-- The effect `_transitionTo` applies to the shared offset: start an
animation towards `toValue`, or assign `toValue` instantaneously. -/
inductive OffsetEffect where
  | animateTo : ℚ → OffsetEffect
  | setValue : ℚ → OffsetEffect
deriving DecidableEq

/-- Embeds `_transitionTo`: builds the two position descriptors, consults
`configureTransition` (when supplied) and either starts a timing animation
to `toValue` or assigns `toValue` directly. -/
def transitionTo (configureTransition : Option (TransitionProps → TransitionProps → Option TransitionSpec))
    (fromValue toValue : ℚ) : OffsetEffect :=
  let currentTransitionProps : TransitionProps := ⟨fromValue⟩
  let nextTransitionProps : TransitionProps := ⟨toValue⟩
  let transitionSpec : Option TransitionSpec :=
    match configureTransition with
    | some f => f currentTransitionProps nextTransitionProps
    | none => none
  match transitionSpec with
  | some _ => .animateTo toValue
  | none => .setValue toValue

/-- The offset value once an `OffsetEffect` has run to completion: an
instantaneous assignment takes effect immediately, and the fire-and-forget
timing animation settles at its `toValue`. -/
def settledOffset : OffsetEffect → ℚ → ℚ
  | .animateTo t, _ => t
  | .setValue t, _ => t

/-- Folding a sequence of move samples through `_respondToGesture`. -/
def respondAll (p : Props) (gs : List Gesture) (s : PagerState) : PagerState :=
  gs.foldl (fun s g => respondToGesture p g s) s

/-- The sign function on rationals, used to phrase the specification's
`sign(dx)`. -/
def qsign (x : ℚ) : ℚ :=
  if 0 < x then 1 else if x < 0 then -1 else 0

/-! ## Helper lemmas -/

/-- A value that passes the (non-finite-aware) range check is finite and
within the bounds. -/
theorem isIndexInRangeN_getFin {x : JSNum} {rc : ℕ} (d : ℚ)
    (h : isIndexInRangeN x rc = true) :
    x.getFin d ≥ 0 ∧ x.getFin d ≤ (rc : ℚ) - 1 := by
  cases x with
  | nan => simp [isIndexInRangeN] at h
  | posInf => simp [isIndexInRangeN] at h
  | negInf => simp [isIndexInRangeN] at h
  | fin q =>
    simp only [isIndexInRangeN, isIndexInRange, Bool.and_eq_true, decide_eq_true_eq] at h
    exact ⟨h.1, h.2⟩

/-- A single move sample either leaves the shared offset unchanged or
writes a value inside the valid range. -/
theorem respondToGesture_offset_cases (p : Props) (g : Gesture) (s : PagerState) :
    (respondToGesture p g s).offset = s.offset ∨
      ((respondToGesture p g s).offset ≥ 0 ∧
        (respondToGesture p g s).offset ≤ (p.routeCount : ℚ) - 1) := by
  obtain ⟨lo, lv, im, sd, off⟩ := s
  cases im
  all_goals
    unfold respondToGesture
    dsimp only
    split
    · next h =>
      rw [Bool.and_eq_true] at h
      right
      exact isIndexInRangeN_getFin off h.2
    · left; rfl

/-- Computation of `dx / Math.abs(dx)`: `NaN` at zero, otherwise the sign. -/
theorem jdiv_abs_self (dx : ℚ) :
    jdiv dx |dx| = if dx = 0 then .nan else .fin (qsign dx) := by
  rcases lt_trichotomy dx 0 with h | h | h
  · rw [if_neg h.ne]
    unfold jdiv qsign
    rw [if_neg (abs_ne_zero.mpr h.ne), if_neg (not_lt.mpr h.le), if_pos h,
      abs_of_neg h, div_neg, div_self h.ne]
  · subst h
    unfold jdiv
    simp
  · rw [if_neg h.ne']
    unfold jdiv qsign
    rw [if_neg (abs_ne_zero.mpr h.ne'), if_pos h, abs_of_pos h, div_self h.ne']

/-- Characterisation of `_getNextIndex` in the specification's terms:
the commit target is `index - sign(dx)` exactly when a threshold is
exceeded and that target is in range, and otherwise the current index. -/
theorem getNextIndex_eq (p : Props) (g : Gesture) :
    getNextIndex p g =
      if (|g.dx| > p.swipeDistanceThreshold ∨
            |g.vx| > normVelocityThreshold p.platform p.swipeVelocityThreshold) ∧
          isIndexInRange ((p.index : ℚ) - qsign g.dx) p.routeCount = true
      then .fin ((p.index : ℚ) - qsign g.dx)
      else .fin (p.index : ℚ) := by
  obtain ⟨dx, dy, vx, vy⟩ := g
  unfold getNextIndex
  dsimp only
  rw [jdiv_abs_self]
  by_cases hz : dx = 0
  · subst hz
    have hq : qsign 0 = 0 := by unfold qsign; norm_num
    rw [if_pos rfl, hq, sub_zero]
    dsimp only [jsub, isIndexInRangeN]
    simp only [Bool.false_eq_true, if_false]
    split_ifs <;> rfl
  · rw [if_neg hz]
    dsimp only [jsub, isIndexInRangeN]
    simp only [Bool.or_eq_true, decide_eq_true_eq]
    by_cases hg : |dx| > p.swipeDistanceThreshold ∨
        |vx| > normVelocityThreshold p.platform p.swipeVelocityThreshold
    · by_cases hr : isIndexInRange ((p.index : ℚ) - qsign dx) p.routeCount = true
      · rw [if_pos hg, if_pos hr, if_pos ⟨hg, hr⟩]
      · rw [if_pos hg, if_neg (fun hc => hr hc), if_neg (fun hc => hr hc.2)]
    · rw [if_neg hg, if_neg (fun hc => hg hc.1)]

/-- The value `_getNextIndex` returns is always a finite number. -/
theorem getNextIndex_isFin (p : Props) (g : Gesture) :
    ∃ q : ℚ, getNextIndex p g = .fin q := by
  rw [getNextIndex_eq]
  split
  · exact ⟨_, rfl⟩
  · exact ⟨_, rfl⟩

/-- Unfolding one sample from a sample sequence. -/
theorem respondAll_cons (p : Props) (g : Gesture) (gs : List Gesture) (s : PagerState) :
    respondAll p (g :: gs) s = respondAll p gs (respondToGesture p g s) := rfl

/-! ## Claims -/

/-- C1: the Drag Tracker writes the shared Offset only with values inside
`[0, routeCount - 1]`. A single move sample either leaves the Offset
unchanged or leaves it in range, and over every sequence of gesture move
samples an in-range Offset stays in range: an out-of-range candidate is
never written, so the Offset holds its last valid value. -/
theorem drag_tracker_range_invariant :
    (∀ (p : Props) (g : Gesture) (s : PagerState),
      (respondToGesture p g s).offset = s.offset ∨
        ((respondToGesture p g s).offset ≥ 0 ∧
          (respondToGesture p g s).offset ≤ (p.routeCount : ℚ) - 1)) ∧
    (∀ (p : Props) (gs : List Gesture) (s : PagerState),
      s.offset ≥ 0 → s.offset ≤ (p.routeCount : ℚ) - 1 →
        (respondAll p gs s).offset ≥ 0 ∧
          (respondAll p gs s).offset ≤ (p.routeCount : ℚ) - 1) := by
  refine ⟨respondToGesture_offset_cases, ?_⟩
  intro p gs
  induction gs with
  | nil => exact fun s h0 h1 => ⟨h0, h1⟩
  | cons g gs ih =>
    intro s h0 h1
    rw [respondAll_cons]
    rcases respondToGesture_offset_cases p g s with h | h
    · exact ih _ (by rw [h]; exact h0) (by rw [h]; exact h1)
    · exact ih _ h.1 h.2

/-- Witness for C1 at a concrete drag: one leftward sample from offset 0
with three routes keeps the offset inside `[0, 2]`. -/
theorem drag_tracker_range_invariant_witness :
    (respondAll ⟨some true, 120, 1/4, 0, 3, 300, .ios⟩ [⟨-30, 0, -1, 0⟩]
        ⟨0, some 0, none, 0, 0⟩).offset ≥ 0 ∧
    (respondAll ⟨some true, 120, 1/4, 0, 3, 300, .ios⟩ [⟨-30, 0, -1, 0⟩]
        ⟨0, some 0, none, 0, 0⟩).offset ≤ ((3 : ℕ) : ℚ) - 1 :=
  drag_tracker_range_invariant.2 ⟨some true, 120, 1/4, 0, 3, 300, .ios⟩
    [⟨-30, 0, -1, 0⟩] ⟨0, some 0, none, 0, 0⟩ (by norm_num) (by norm_num)

/-- C2: for a released horizontal, non-reversed gesture with
`lastSettledOffset ≠ committedIndex`, the request is
`committedIndex - sign(dx)` exactly when a threshold is exceeded and that
target is in range, and `committedIndex` otherwise; in particular with
`swipeDistanceThreshold = 120`, `dx = -130`, `vx = 0`, `index = 0`,
`routeCount = 3` the request is `jumpToIndex 1`, and at
`index = routeCount - 1` any leftward release still requests
`routeCount - 1`. -/
theorem commit_resolver_threshold :
    (∀ (p : Props) (g : Gesture),
      getNextIndex p g =
        if (|g.dx| > p.swipeDistanceThreshold ∨
              |g.vx| > normVelocityThreshold p.platform p.swipeVelocityThreshold) ∧
            isIndexInRange ((p.index : ℚ) - qsign g.dx) p.routeCount = true
        then .fin ((p.index : ℚ) - qsign g.dx)
        else .fin (p.index : ℚ)) ∧
    (∀ (p : Props) (g : Gesture) (s : PagerState),
      s.lastOffset ≠ (p.index : ℚ) → s.isMoving = some true →
      isReverseDirection s.startDirection g.vx = false →
      (finishGesture p g s).1 = some (getNextIndex p g)) ∧
    ((finishGesture ⟨some true, 120, 1/4, 0, 3, 300, .ios⟩ ⟨-130, 0, 0, 0⟩
        ⟨1/2, some (1/2), some true, -130, 1/2⟩).1 = some (.fin 1)) ∧
    (∀ (p : Props) (g : Gesture) (s : PagerState),
      s.lastOffset ≠ (p.index : ℚ) → s.isMoving = some true →
      isReverseDirection s.startDirection g.vx = false →
      p.index = (p.routeCount : ℤ) - 1 → g.dx < 0 →
      (finishGesture p g s).1 = some (.fin ((p.routeCount : ℚ) - 1))) := by
  have hroute : ∀ (p : Props) (g : Gesture) (s : PagerState),
      s.lastOffset ≠ (p.index : ℚ) → s.isMoving = some true →
      isReverseDirection s.startDirection g.vx = false →
      (finishGesture p g s).1 = some (getNextIndex p g) := by
    intro p g s h1 h2 h3
    unfold finishGesture
    dsimp only
    rw [if_pos h1, h2, h3]
    rfl
  refine ⟨getNextIndex_eq, hroute, ?_, ?_⟩
  · rw [hroute _ _ _ (by norm_num) rfl (by norm_num [isReverseDirection])]
    norm_num [getNextIndex, normVelocityThreshold, jdiv, jsub, isIndexInRangeN,
      isIndexInRange]
  intro p g s h1 h2 h3 hidx hdx
  rw [hroute p g s h1 h2 h3, getNextIndex_eq]
  have hq : qsign g.dx = -1 := by
    unfold qsign
    rw [if_neg (not_lt.mpr hdx.le), if_pos hdx]
  have h2le : ¬ ((p.routeCount : ℚ) ≤ (p.routeCount : ℚ) - 1) := by linarith
  have hfalse : isIndexInRange ((p.routeCount : ℚ)) p.routeCount = false := by
    unfold isIndexInRange
    rw [decide_eq_false h2le, Bool.and_false]
  rw [hq, hidx]
  push_cast
  rw [(by ring : ((p.routeCount : ℚ) - 1 - (-1)) = (p.routeCount : ℚ))]
  rw [if_neg (fun hc => Bool.false_ne_true (hfalse ▸ hc.2))]

/-- Witness for C2 at the edge: `index = 2`, `routeCount = 3`, a hard
leftward fling still requests index 2. -/
theorem commit_resolver_threshold_witness :
    (finishGesture ⟨some true, 120, 1/4, 2, 3, 300, .ios⟩ ⟨-10000, 0, -5, 0⟩
        ⟨5/2, some (5/2), some true, -10000, 5/2⟩).1 =
      some (.fin (((3 : ℕ) : ℚ) - 1)) :=
  commit_resolver_threshold.2.2.2 ⟨some true, 120, 1/4, 2, 3, 300, .ios⟩
    ⟨-10000, 0, -5, 0⟩ ⟨5/2, some (5/2), some true, -10000, 5/2⟩
    (by norm_num) rfl (by norm_num [isReverseDirection]) (by norm_num) (by norm_num)

/-- C3: a direction reversal at release always snaps back: when
`lastSettledOffset ≠ committedIndex` and the release velocity opposes the
initiating direction, the resolver requests `committedIndex` regardless of
`dx`; and (for a nonzero initiating direction) the gesture counts as
continuing forward exactly when `startDirection > 0 ∧ vx ≥ 0` or
`startDirection < 0 ∧ vx ≤ 0`. -/
theorem reversal_overrides_distance :
    (∀ (p : Props) (g : Gesture) (s : PagerState),
      s.lastOffset ≠ (p.index : ℚ) → s.startDirection < 0 → 0 < g.vx →
      (finishGesture p g s).1 = some (.fin (p.index : ℚ))) ∧
    (∀ (p : Props) (g : Gesture) (s : PagerState),
      s.lastOffset ≠ (p.index : ℚ) → 0 < s.startDirection → g.vx < 0 →
      (finishGesture p g s).1 = some (.fin (p.index : ℚ))) ∧
    (∀ (sd vx : ℚ), sd ≠ 0 →
      (isReverseDirection sd vx = false ↔ (0 < sd ∧ 0 ≤ vx) ∨ (sd < 0 ∧ vx ≤ 0))) := by
  refine ⟨?_, ?_, ?_⟩
  · intro p g s h1 hsd hvx
    have hrev : isReverseDirection s.startDirection g.vx = true := by
      unfold isReverseDirection
      rw [if_neg (not_lt.mpr hsd.le)]
      exact decide_eq_true hvx
    unfold finishGesture
    dsimp only
    rw [if_pos h1, hrev]
    simp
  · intro p g s h1 hsd hvx
    have hrev : isReverseDirection s.startDirection g.vx = true := by
      unfold isReverseDirection
      rw [if_pos hsd]
      exact decide_eq_true hvx
    unfold finishGesture
    dsimp only
    rw [if_pos h1, hrev]
    simp
  · intro sd vx hsd
    unfold isReverseDirection
    rcases lt_or_gt_of_ne hsd with h | h
    · rw [if_neg (not_lt.mpr h.le)]
      simp only [decide_eq_false_iff_not, not_lt]
      constructor
      · exact fun hv => Or.inr ⟨h, hv⟩
      · rintro (⟨h0, -⟩ | ⟨-, hv⟩)
        · exact absurd h0 (not_lt.mpr h.le)
        · exact hv
    · rw [if_pos h]
      simp only [decide_eq_false_iff_not, not_lt]
      constructor
      · exact fun hv => Or.inl ⟨h, hv⟩
      · rintro (⟨-, hv⟩ | ⟨h0, -⟩)
        · exact hv
        · exact absurd h (not_lt.mpr h0.le)

/-- Witness for C3: a gesture started leftward and released with rightward
velocity snaps back to index 0 even with a huge displacement. -/
theorem reversal_overrides_distance_witness :
    (finishGesture ⟨some true, 120, 1/4, 0, 3, 300, .ios⟩ ⟨-500, 0, 1, 0⟩
        ⟨1/2, some (1/2), some true, -200, 1/2⟩).1 =
      some (.fin (((0 : ℤ) : ℚ))) :=
  reversal_overrides_distance.1 ⟨some true, 120, 1/4, 0, 3, 300, .ios⟩
    ⟨-500, 0, 1, 0⟩ ⟨1/2, some (1/2), some true, -200, 1/2⟩
    (by norm_num) (by norm_num) (by norm_num)

/-- C4: the classifier claims a gesture only when both 3:1 dominance tests
hold and the displacement clears the 12-unit dead zone; a sample with
`dx = 100, dy = 150` is never claimed whatever its velocity, props or
index; and a claim never happens with swiping disabled. -/
theorem classifier_claim_conditions :
    (∀ (p : Props) (g : Gesture), canMoveScreen p g = true →
      |g.dx| > 3 * |g.dy| ∧ |g.vx| > 3 * |g.vy| ∧ (g.dx ≥ 12 ∨ g.dx ≤ -12)) ∧
    (∀ (p : Props) (vx vy : ℚ),
      canMoveScreen p ⟨100, 150, vx, vy⟩ = false) ∧
    (∀ (p : Props) (g : Gesture), p.swipeEnabled = some false →
      canMoveScreen p g = false) := by
  have e1 : ∀ y : ℚ, |y * 3| = 3 * |y| := by
    intro y
    rw [abs_mul, abs_of_pos (by norm_num : (0 : ℚ) < 3), mul_comm]
  refine ⟨?_, ?_, ?_⟩
  · intro p g h
    unfold canMoveScreen at h
    split at h
    · exact absurd h Bool.false_ne_true
    · rw [Bool.and_eq_true] at h
      obtain ⟨hh, hd⟩ := h
      unfold isMovingHorzontally at hh
      rw [Bool.and_eq_true, decide_eq_true_eq, decide_eq_true_eq] at hh
      rw [Bool.or_eq_true, Bool.and_eq_true, Bool.and_eq_true,
        decide_eq_true_eq, decide_eq_true_eq, decide_eq_true_eq,
        decide_eq_true_eq] at hd
      simp only [DEAD_ZONE] at hd
      refine ⟨e1 g.dy ▸ hh.1, e1 g.vy ▸ hh.2, ?_⟩
      rcases hd with ⟨h12, -⟩ | ⟨h12, -⟩
      · exact Or.inl h12
      · exact Or.inr h12
  · intro p vx vy
    have hfalse : isMovingHorzontally ⟨100, 150, vx, vy⟩ = false := by
      unfold isMovingHorzontally
      dsimp only
      rw [show decide (|(100 : ℚ)| > |(150 : ℚ) * 3|) = false from by norm_num,
        Bool.false_and]
    unfold canMoveScreen
    split
    · rfl
    · rw [hfalse, Bool.false_and]
  · intro p g h
    unfold canMoveScreen
    rw [h]
    rfl

/-- Witness for C4: a claimed rightward sample at index 0 satisfies both
dominance bounds and the dead-zone disjunction. -/
theorem classifier_claim_conditions_witness :
    |(20 : ℚ)| > 3 * |(0 : ℚ)| ∧ |(5 : ℚ)| > 3 * |(0 : ℚ)| ∧
      ((20 : ℚ) ≥ 12 ∨ (20 : ℚ) ≤ -12) :=
  classifier_claim_conditions.1 ⟨some true, 120, 1/4, 0, 3, 300, .ios⟩
    ⟨20, 0, 5, 0⟩ (by norm_num [canMoveScreen, isMovingHorzontally, DEAD_ZONE])

/-- The velocity half of the code's commit guard: raw `|vx|` compared
against the platform-adjusted threshold, exactly as in `_getNextIndex`. -/
def velocityCommitCode (plat : Platform) (t vx : ℚ) : Bool :=
  decide (|vx| > normVelocityThreshold plat t)

/-- The velocity half of the commit guard as claim C5 words it: on the
normalizing platform the RAW VELOCITY is divided by 1,000,000 before
comparison with the configured threshold (definition follows the claim's
words, for comparison against the code's `velocityCommitCode`). -/
def velocityCommitSpec (plat : Platform) (t vx : ℚ) : Bool :=
  match plat with
  | .android => decide (|vx / 1000000| > t)
  | .ios => decide (|vx| > t)

/-- C5 counterexample: on Android with the default threshold 1/4 and raw
release velocity 1, the code commits — it divides the THRESHOLD by 1e6 —
while dividing the raw velocity by 1e6, as the claim words it, would not
commit (1e-6 is far below 1/4); concretely `_getNextIndex` moves to index
1 on a sub-distance swipe where the claim's reading would stay at 0. -/
theorem velocity_normalization_counterexample :
    velocityCommitCode .android (1/4) 1 = true ∧
    velocityCommitSpec .android (1/4) 1 = false ∧
    getNextIndex ⟨some true, 120, 1/4, 0, 3, 300, .android⟩ ⟨-13, 0, 1, 0⟩ = .fin 1 := by
  refine ⟨by norm_num [velocityCommitCode, normVelocityThreshold],
    by norm_num [velocityCommitSpec, abs_div], ?_⟩
  norm_num [getNextIndex, normVelocityThreshold, jdiv, jsub, isIndexInRangeN,
    isIndexInRange]

/-- C5 amended: on Android it is the configured `swipeVelocityThreshold`
that is divided by 1,000,000 before comparison with the raw `vx` — which
is equivalent to comparing the raw velocity MULTIPLIED by 1,000,000
against the configured threshold; on iOS the comparison uses the raw `vx`
and the configured threshold unchanged. -/
theorem velocity_normalization_amended :
    (∀ t vx : ℚ, velocityCommitCode .android t vx = decide (|vx * 1000000| > t)) ∧
    (∀ t vx : ℚ, velocityCommitCode .ios t vx = decide (|vx| > t)) ∧
    (∀ t : ℚ, normVelocityThreshold .android t = t / 1000000) := by
  refine ⟨?_, fun t vx => rfl, fun t => rfl⟩
  intro t vx
  unfold velocityCommitCode normVelocityThreshold
  rw [decide_eq_decide, gt_iff_lt, gt_iff_lt, abs_mul,
    abs_of_pos (by norm_num : (0 : ℚ) < 1000000),
    div_lt_iff₀ (by norm_num : (0 : ℚ) < 1000000)]

/-- C6 counterexample: settle(1, 1) invoked while the shared Offset holds
1/2 changes the Offset to 1, in both the instantaneous branch (no
transition specification) and the animated branch. -/
theorem settle_idempotent_counterexample :
    settledOffset (transitionTo none 1 1) (1/2) = 1 ∧
    settledOffset (transitionTo (some fun _ _ => some ⟨300, 35⟩) 1 1) (1/2) = 1 ∧
    (1 : ℚ) ≠ 1/2 :=
  ⟨rfl, rfl, by norm_num⟩

/-- C6 amended: settle(i, i) leaves the shared Offset unchanged whenever
the Offset already holds i — in particular whenever it is invoked at rest,
where Offset = index; in general both branches drive the Offset to the
target i, so an Offset not equal to i does change. -/
theorem settle_idempotent_amended :
    ∀ (cfg : Option (TransitionProps → TransitionProps → Option TransitionSpec)) (i : ℚ),
      settledOffset (transitionTo cfg i i) i = i := by
  intro cfg i
  rcases cfg with - | f
  · rfl
  · unfold transitionTo
    dsimp only
    cases f ⟨i⟩ ⟨i⟩ <;> rfl

/-- C7: a gesture released while the cached settled offset equals the
committed index requests no index change on any branch, regardless of the
release sample. -/
theorem noop_tap (p : Props) (g : Gesture) (s : PagerState)
    (h : s.lastOffset = (p.index : ℚ)) :
    (finishGesture p g s).1 = none := by
  unfold finishGesture
  dsimp only
  rw [if_neg (fun hc => hc h)]

/-- Witness for C7: a tap (`dx = dy = 0`) with the offset settled at the
current index requests nothing. -/
theorem noop_tap_witness :
    (finishGesture ⟨some true, 120, 1/4, 1, 3, 300, .ios⟩ ⟨0, 0, 0, 0⟩
        ⟨1, none, none, 0, 1⟩).1 = none :=
  noop_tap ⟨some true, 120, 1/4, 1, 3, 300, .ios⟩ ⟨0, 0, 0, 0⟩
    ⟨1, none, none, 0, 1⟩ (by norm_num)

/-- C8 counterexample: after `_finishGesture` the session's
`startDirection` still holds the previous gesture's value (-20) rather
than being cleared back to its initial value 0. -/
theorem session_reset_counterexample :
    ((finishGesture ⟨some true, 120, 1/4, 0, 3, 300, .ios⟩ ⟨0, 0, 0, 0⟩
        ⟨0, some 0, some true, -20, 0⟩).2).startDirection = -20 ∧
    (-20 : ℚ) ≠ 0 :=
  ⟨rfl, by norm_num⟩

/-- C8 amended: on every gesture end (release or forced termination) and
on every branch, `_lastValue` (baselineValue) and `_isMoving`
(isHorizontalMove) are reset to null — but `_startDirection` is NOT
cleared: it and every other remaining field carry over unchanged into the
next gesture until the next successful claim overwrites it. -/
theorem session_reset_amended :
    ∀ (p : Props) (g : Gesture) (s : PagerState),
      (finishGesture p g s).2 = { s with lastValue := none, isMoving := none } :=
  fun _ _ _ => rfl

/-- C9: with `dx = 0` and `|vx|` above the platform-adjusted velocity
threshold, the candidate `index - dx / |dx|` evaluates to NaN, NaN fails
the range check, and `_getNextIndex` returns the current index; moreover
every `jumpToIndex` request the resolver can make carries a finite number,
never NaN. -/
theorem nan_division_safe :
    (∀ (p : Props) (g : Gesture), g.dx = 0 →
      |g.vx| > normVelocityThreshold p.platform p.swipeVelocityThreshold →
      jsub (p.index : ℚ) (jdiv g.dx |g.dx|) = .nan ∧
      isIndexInRangeN (jsub (p.index : ℚ) (jdiv g.dx |g.dx|)) p.routeCount = false ∧
      getNextIndex p g = .fin (p.index : ℚ)) ∧
    (∀ (p : Props) (g : Gesture) (s : PagerState) (n : JSNum),
      (finishGesture p g s).1 = some n → ∃ q : ℚ, n = .fin q) := by
  constructor
  · intro p g hz hv
    have h1 : jdiv g.dx |g.dx| = .nan := by
      rw [jdiv_abs_self, if_pos hz]
    refine ⟨by rw [h1]; rfl, by rw [h1]; rfl, ?_⟩
    unfold getNextIndex
    dsimp only
    rw [h1]
    rw [if_pos ((Bool.or_eq_true _ _).mpr (Or.inr (decide_eq_true hv)))]
    dsimp only [jsub, isIndexInRangeN]
    rw [if_neg (by simp)]
  · intro p g s n h
    unfold finishGesture at h
    dsimp only at h
    split at h
    · split at h
      · obtain ⟨q, hq⟩ := getNextIndex_isFin p g
        exact ⟨q, (Option.some.inj h) ▸ hq⟩
      · exact ⟨(p.index : ℚ), (Option.some.inj h).symm⟩
    · exact absurd h (by simp)

/-- Witness for C9 at `dx = 0`, `vx = 1`, index 1 of 3 routes. -/
theorem nan_division_safe_witness :
    jsub (((1 : ℤ) : ℚ)) (jdiv (0 : ℚ) |(0 : ℚ)|) = .nan ∧
    isIndexInRangeN (jsub (((1 : ℤ) : ℚ)) (jdiv (0 : ℚ) |(0 : ℚ)|)) 3 = false ∧
    getNextIndex ⟨some true, 120, 1/4, 1, 3, 300, .ios⟩ ⟨0, 0, 1, 0⟩ =
      .fin (((1 : ℤ) : ℚ)) :=
  nan_division_safe.1 ⟨some true, 120, 1/4, 1, 3, 300, .ios⟩ ⟨0, 0, 1, 0⟩
    rfl (by norm_num [normVelocityThreshold])

/-- C10: for every valid navigation state the classifier's edge guards
(`index >= 0`, `index <= routes.length - 1`) are vacuously true, so the
claim decision is exactly "enabled ∧ horizontal ∧ beyond the dead zone in
either direction"; at index 0 a rightward sample beyond the dead zone is
still claimed; out-of-range motion is prevented only by the later range
check in the Drag Tracker, which writes only in-range offsets. -/
theorem edge_guards_vacuous :
    (∀ (p : Props) (g : Gesture), 0 ≤ p.index → p.index ≤ (p.routeCount : ℤ) - 1 →
      canMoveScreen p g =
        (!(p.swipeEnabled == some false) && (isMovingHorzontally g &&
          (decide (g.dx ≥ DEAD_ZONE) || decide (g.dx ≤ -DEAD_ZONE))))) ∧
    (∀ (sdt svt w : ℚ) (rc : ℕ) (plat : Platform) (g : Gesture),
      isMovingHorzontally g = true → g.dx ≥ 12 →
      canMoveScreen ⟨some true, sdt, svt, 0, rc, w, plat⟩ g = true) ∧
    (∀ (p : Props) (g : Gesture) (s : PagerState),
      (respondToGesture p g s).offset = s.offset ∨
        ((respondToGesture p g s).offset ≥ 0 ∧
          (respondToGesture p g s).offset ≤ (p.routeCount : ℚ) - 1)) := by
  refine ⟨?_, ?_, respondToGesture_offset_cases⟩
  · intro p g h0 h1
    have hq0 : ((p.index : ℚ) ≥ 0) := by exact_mod_cast h0
    have hq1 : (p.index : ℚ) ≤ (p.routeCount : ℚ) - 1 := by
      have h1q : ((p.index : ℤ) : ℚ) ≤ (((p.routeCount : ℤ) - 1 : ℤ) : ℚ) := by
        exact_mod_cast h1
      push_cast at h1q
      exact h1q
    unfold canMoveScreen
    split
    · next h =>
      rw [h]
      rfl
    · next h =>
      rw [Bool.not_eq_true] at h
      rw [h, decide_eq_true hq0, decide_eq_true hq1, Bool.and_true, Bool.and_true]
      rfl
  · intro sdt svt w rc plat g hh h12
    have hd : decide (g.dx ≥ DEAD_ZONE) = true :=
      decide_eq_true (by unfold DEAD_ZONE; exact h12)
    unfold canMoveScreen
    dsimp only
    rw [hh, hd]
    norm_num

/-- Witness for C10: at index 0 with three routes, a rightward sample with
`dx = 20` is claimed even though no previous panel exists. -/
theorem edge_guards_vacuous_witness :
    canMoveScreen ⟨some true, 120, 1/4, 0, 3, 300, .ios⟩ ⟨20, 0, 5, 0⟩ = true :=
  edge_guards_vacuous.2.1 120 (1/4) 300 3 .ios ⟨20, 0, 5, 0⟩
    (by norm_num [isMovingHorzontally]) (by norm_num)

end TabViewPagerPan
